import Mathlib

/-!
Verification of the Series construction/evaluation engine of data-forge-ts.

The repository ships only the type declarations (`src/build/lib/series.d.ts`);
the method bodies behind them are not present. The declarations fix the
surface (ISeriesConfig, SelectorFn, ISeries, the Series class with its
private fields `index`, `values`, `pairs`, `isBaked` and its private
initializers `initFromArray`, `initEmpty`, `initIterable`, `initFromConfig`),
and the behavioural model below is built from the specification's description
of that engine, keeping the declared names.

Observable behaviour is modelled as follows: a full traversal of a Series
either yields its ordered list of (key, value) pairs or fails with one of the
documented error conditions, so terminal operations return `Except`. Selector
invocation counts are carried explicitly so that laziness and bake-caching
claims can be stated. Lazy pull-based iteration is modelled by an explicit
iterator state machine with instrumentation counters.
-/

namespace DataForge

/-- Modelled from the spec: the error taxonomy of the engine. A Configuration
error is raised when both `values` and `pairs` are supplied (or `pairs`
together with an explicit `index`); a Length-Mismatch error when an explicit
index and the values differ in eventual count. -/
inductive DFError where
  | configurationError : DFError
  | lengthMismatch : DFError
deriving DecidableEq, Repr

/-- Modelled from the spec: a value, key or pair source supplied to the
constructor is either a plain array, whose length is statically known, or an
arbitrary finite iterable, whose length is unknown until it is traversed.
This is the shape distinction that decides whether a length mismatch is
detectable at construction time. Corresponds to the `ValueT[] | Iterable`
unions of ISeriesConfig (series.d.ts lines 6-11) and to the class's private
`initIterable` adapter (line 103). -/
inductive Source (α : Type) where
  | arr : List α → Source α
  | iterable : List α → Source α
deriving DecidableEq, Repr

/-- Underlying element sequence of a source, in order. -/
def Source.toList {α : Type} : Source α → List α
  | .arr l => l
  | .iterable l => l

/-- Series configuration, from ISeriesConfig (series.d.ts lines 6-11):
optional values, optional explicit index, optional pre-paired content, and
the `baked` flag that forces immediate materialization at construction. -/
structure ISeriesConfig (K V : Type) where
  values : Option (Source V)
  index : Option (Source K)
  pairs : Option (Source (K × V))
  baked : Bool

/-- Modelled from the spec: a Series is observably a lazy pair source plus the
`isBaked` flag (class fields, series.d.ts lines 97-100). `pairsE` is the
outcome of one full traversal of the pair source: the ordered pairs, or the
error the traversal surfaces. `cost` is the number of selector invocations
one full traversal performs; it is 0 for a baked Series, whose traversals
read the cached array and re-run no upstream transform logic. -/
structure Series (K V : Type) where
  pairsE : Except DFError (List (K × V))
  cost : Nat
  isBaked : Bool
deriving Repr

variable {K K2 V W : Type}

/-- Modelled from the spec: construction from a plain array of values
synthesizes a sequential integer index 0, 1, 2, … of the same length
(series.d.ts line 101, `initFromArray`). Not yet baked: nothing is cached. -/
def Series.initFromArray (vs : List V) : Series Nat V :=
  { pairsE := .ok vs.enum, cost := 0, isBaked := false }

/-- Modelled from the spec: an empty or absent configuration produces an empty
Series that is already baked, since it requires no further evaluation
(series.d.ts line 102, `initEmpty`). -/
def Series.initEmpty : Series K V :=
  { pairsE := .ok [], cost := 0, isBaked := true }

/-- Modelled from the spec: final packaging of a configured pair source. When
the `baked` flag is set, materialization happens immediately at construction,
so a lazy failure surfaces right here; otherwise the (possibly failing)
traversal is deferred inside an unbaked Series. -/
def Series.finishConfig (baked : Bool) (pairsE : Except DFError (List (K × V))) :
    Except DFError (Series K V) :=
  if baked then pairsE.map fun ps => { pairsE := .ok ps, cost := 0, isBaked := true }
  else .ok { pairsE := pairsE, cost := 0, isBaked := false }

/-- Modelled from the spec: `initFromConfig` (series.d.ts line 104), the
dispatch on which configuration fields are present. Supplying both `values`
and `pairs` (or `pairs` with an explicit `index`) is a Configuration error,
reported synchronously before either source is inspected. An explicit index
and values that are both plain arrays have statically known lengths, so a
mismatch fails at construction; any other shape combination defers the length
check to the first full traversal. `natKey` embeds the synthesized sequential
integer keys into K: the source language leaves the default index untyped. -/
def Series.initFromConfig (natKey : Nat → K) (config : ISeriesConfig K V) :
    Except DFError (Series K V) :=
  match config.values, config.pairs with
  | some _, some _ => .error .configurationError
  | none, some ps =>
    match config.index with
    | some _ => .error .configurationError
    | none => Series.finishConfig config.baked (.ok ps.toList)
  | some vs, none =>
    match config.index with
    | none =>
      Series.finishConfig config.baked (.ok (vs.toList.enum.map fun p => (natKey p.1, p.2)))
    | some ix =>
      match ix, vs with
      | .arr ia, .arr va =>
        if ia.length = va.length then Series.finishConfig config.baked (.ok (ia.zip va))
        else .error .lengthMismatch
      | ix, vs =>
        Series.finishConfig config.baked
          (if ix.toList.length = vs.toList.length then .ok (ix.toList.zip vs.toList)
           else .error .lengthMismatch)
  | none, none => .ok Series.initEmpty

/-- Terminal operation `toPairs` (series.d.ts line 153): forces the traversal
and returns the ordered (key, value) pairs, or the error it surfaces. -/
def Series.toPairs (s : Series K V) : Except DFError (List (K × V)) :=
  s.pairsE

/-- Terminal operation `toArray` (series.d.ts line 145): forces the traversal
and returns the ordered values, or the error it surfaces. -/
def Series.toArray (s : Series K V) : Except DFError (List V) :=
  s.pairsE.map (List.map Prod.snd)

/-- Observable key sequence of `getIndex` (series.d.ts line 124): the ordered
keys the index yields once traversal completes. -/
def Series.getIndex (s : Series K V) : Except DFError (List K) :=
  s.pairsE.map (List.map Prod.fst)

/-- Modelled from the spec: `select` (series.d.ts line 161) wraps the pair
source so that it yields (key, selector value positionalIndex) for each
original pair; the selector's second argument is the zero-based position
within the sequence, not the key. A full traversal of the result invokes the
selector once per pair on top of the upstream cost. The result is unbaked. -/
def Series.select (f : V → Nat → W) (s : Series K V) : Series K W :=
  { pairsE := s.pairsE.map fun ps => ps.enum.map fun p => (p.2.1, f p.2.2 p.1)
  , cost := s.cost + (match s.pairsE with | .ok ps => ps.length | .error _ => 0)
  , isBaked := false }

/-- Modelled from the spec: `skip` (series.d.ts line 168) discards the first
`numValues` pairs, advancing index and values together; a non-positive count
leaves the sequence unmodified. The result is unbaked. -/
def Series.skip (numValues : Int) (s : Series K V) : Series K V :=
  { pairsE := s.pairsE.map (List.drop numValues.toNat)
  , cost := s.cost
  , isBaked := false }

/-- Modelled from the spec: `withIndex` (series.d.ts line 132) keeps the
values and replaces the key sequence; a count mismatch between the new index
and the values surfaces as a Length-Mismatch only when the pair source is
traversed. The result is unbaked. -/
def Series.withIndex (newIndex : Source K2) (s : Series K V) : Series K2 V :=
  { pairsE :=
      match s.pairsE with
      | .error e => .error e
      | .ok ps =>
        if newIndex.toList.length = ps.length then .ok (newIndex.toList.zip (ps.map Prod.snd))
        else .error .lengthMismatch
  , cost := s.cost
  , isBaked := false }

/-- Modelled from the spec: `resetIndex` (series.d.ts line 138) re-keys the
values with a freshly synthesized sequential integer index 0, 1, …, len-1 of
the same eventual length. The result is unbaked. -/
def Series.resetIndex (s : Series K V) : Series Nat V :=
  { pairsE := s.pairsE.map fun ps => (ps.map Prod.snd).enum
  , cost := s.cost
  , isBaked := false }

/-- Modelled from the spec: `bake` (series.d.ts line 181). On an already
baked Series it returns the Series unchanged without traversing anything;
otherwise it runs the lazy pair source once, caches the resulting array in a
new baked Series, or fails with the error the traversal surfaces. -/
def Series.bake (s : Series K V) : Except DFError (Series K V) :=
  if s.isBaked then .ok s
  else s.pairsE.map fun ps => { pairsE := .ok ps, cost := 0, isBaked := true }

/-- Number of selector invocations one call to `bake` performs: none when the
Series is already baked (the cached array is reused), otherwise the cost of
the single full traversal it runs. -/
def Series.bakeInvocations (s : Series K V) : Nat :=
  if s.isBaked then 0 else s.cost

/-- Modelled from the spec: the state of the pull-based iterator produced by
`select` over its upstream pair source, instrumented with the number of
selector invocations performed so far and the number of upstream pairs
consumed so far. `pos` is the zero-based positional counter handed to the
selector. -/
structure SelectIterState (K V : Type) where
  upstream : List (K × V)
  pos : Nat
  selectorCalls : Nat
  upstreamPulled : Nat
deriving Repr

/-- Initial iterator state over an upstream pair source: nothing consumed and
no selector invocation has happened yet. -/
def selectIterStart (src : List (K × V)) : SelectIterState K V :=
  { upstream := src, pos := 0, selectorCalls := 0, upstreamPulled := 0 }

/-- Modelled from the spec: one pull on the `select` iterator. Only when a
consumer requests the next pair does it take one pair from upstream, invoke
the selector on the value and the current position, and advance. -/
def selectNext (f : V → Nat → W) (st : SelectIterState K V) :
    Option ((K × W) × SelectIterState K V) :=
  match st.upstream with
  | [] => none
  | p :: rest =>
    some ((p.1, f p.2 st.pos),
      { upstream := rest
      , pos := st.pos + 1
      , selectorCalls := st.selectorCalls + 1
      , upstreamPulled := st.upstreamPulled + 1 })

/-- Advancing the `select` iterator by at most `k` requested pairs: returns
the pairs produced, in order, and the final iterator state. -/
def selectAdvance (f : V → Nat → W) : Nat → SelectIterState K V →
    List (K × W) × SelectIterState K V
  | 0, st => ([], st)
  | k + 1, st =>
    match selectNext f st with
    | none => ([], st)
    | some (p, st1) =>
      let r := selectAdvance f k st1
      (p :: r.1, r.2)

/-- Shapes a new-index argument to `withIndex` can have, for comparing the
declared contract of ISeries.withIndex (series.d.ts line 35) with the
declared signature of the class method Series.withIndex (line 132). -/
inductive WithIndexArgShape where
  | plainArray
  | generalIterable
  | indexObject
  | seriesObject
deriving DecidableEq, Repr

/-- Shapes admitted by the interface contract ISeries.withIndex
(series.d.ts line 35): a plain array or any iterable of new keys. An ISeries
value is itself declared iterable (line 19), and an IIndex exposes its
ordered key sequence (modelled from the spec, the `./index` module being
absent from the sources), so every listed shape falls under the union. -/
def iseriesWithIndexAccepts : WithIndexArgShape → Bool
  | .plainArray => true
  | .generalIterable => true
  | .indexObject => true
  | .seriesObject => true

/-- Shapes admitted by the declared signature of the class method
Series.withIndex (series.d.ts line 132): an IIndex, an ISeries, or a plain
array. A general iterable, such as a bare generator, is none of the three. -/
def seriesWithIndexAccepts : WithIndexArgShape → Bool
  | .plainArray => true
  | .generalIterable => false
  | .indexObject => true
  | .seriesObject => true

/-- Concrete Series used to instantiate theorems with hypotheses. -/
def exampleSeries : Series Nat Nat :=
  Series.initFromArray [10, 20, 30]

/-- Concrete unbaked select chain used to instantiate bake theorems. -/
def exampleSelected : Series Nat Nat :=
  (Series.initFromArray [1, 2]).select fun v i => v + i

/-- Mapping a function over the values of an enumerated list commutes with
enumeration followed by mapping over the second components. -/
theorem enum_map_snd_comm (g : α → β) (l : List α) :
    (l.map g).enum = l.enum.map fun p => (p.1, g p.2) := by
  rw [List.enum_map]
  exact List.map_congr_left fun p _ => rfl

/-- Claim C3: constructing a Series from a plain array of values alone yields
the zero-based sequential integer index 0, 1, …, len-1 as keys and the
original values, in order. -/
theorem fromArray_default_index (vs : List V) :
    (Series.initFromArray vs).getIndex = .ok (List.range vs.length) ∧
    (Series.initFromArray vs).toArray = .ok vs := by
  constructor
  · simp [Series.initFromArray, Series.getIndex, Except.map, List.enum_map_fst]
  · simp [Series.initFromArray, Series.toArray, Except.map, List.enum_map_snd]

/-- Claim C1: for every Series `s` and selector `f`, `s.select f` traversed to
an array equals `s` traversed to an array with `f` applied to each value and
its zero-based position, in order; the selector's second argument is the
position within the sequence, never the key (the keys of `s` do not occur in
the equation's right-hand side). -/
theorem select_positional_toArray (s : Series K V) (f : V → Nat → W) :
    (s.select f).toArray = s.toArray.map fun vs => vs.enum.map fun p => f p.2 p.1 := by
  cases hp : s.pairsE with
  | error e => simp [Series.select, Series.toArray, hp, Except.map]
  | ok ps =>
    simp only [Series.select, Series.toArray, hp, Except.map]
    rw [enum_map_snd_comm]
    simp [List.map_map, Function.comp]

/-- Claim C8: `resetIndex` keeps the values of the Series and re-keys them
with exactly the sequential integer index 0, 1, …, len-1, where len is the
number of values, regardless of the prior index's key type or key values. -/
theorem resetIndex_sequential_keys (s : Series K V) :
    (s.resetIndex).toArray = s.toArray ∧
    (s.resetIndex).getIndex = s.toArray.map fun vs => List.range vs.length := by
  cases hp : s.pairsE with
  | error e =>
    simp [Series.resetIndex, Series.toArray, Series.getIndex, hp, Except.map]
  | ok ps =>
    simp [Series.resetIndex, Series.toArray, Series.getIndex, hp, Except.map,
      List.enum_map_snd, List.enum_map_fst]

/-- Claim C7: a configuration supplying both `values` and `pairs` is rejected
with a Configuration error synchronously at construction; the outcome is the
same for every content of either source and for every index and baked flag,
so no element of either source is inspected before the error is raised. -/
theorem values_and_pairs_config_error (natKey : Nat → K) (vs : Source V)
    (ixOpt : Option (Source K)) (ps : Source (K × V)) (b : Bool) :
    Series.initFromConfig natKey ⟨some vs, ixOpt, some ps, b⟩ =
      .error .configurationError := rfl

/-- Claim C2: `skip` keeps the remaining keys paired with their values
(first conjunct); for `0 ≤ n` the resulting values are the suffix of the
original values starting at position n (second conjunct); a non-positive
count leaves the traversal unchanged (third conjunct); a count at least the
length yields the empty array (fourth conjunct). -/
theorem skip_suffix_spec (s : Series K V) (n : Int) :
    (s.skip n).toPairs = s.toPairs.map (List.drop n.toNat) ∧
    (0 ≤ n → (s.skip n).toArray = s.toArray.map (List.drop n.toNat)) ∧
    (n ≤ 0 → (s.skip n).toArray = s.toArray) ∧
    (∀ vs, s.toArray = .ok vs → (vs.length : Int) ≤ n → (s.skip n).toArray = .ok []) := by
  refine ⟨rfl, ?_, ?_, ?_⟩
  · intro _
    cases hp : s.pairsE with
    | error e => simp [Series.skip, Series.toArray, hp, Except.map]
    | ok ps => simp [Series.skip, Series.toArray, hp, Except.map, List.map_drop]
  · intro hn
    have h0 : n.toNat = 0 := Int.toNat_of_nonpos hn
    cases hp : s.pairsE with
    | error e => simp [Series.skip, Series.toArray, hp, Except.map]
    | ok ps => simp [Series.skip, Series.toArray, hp, Except.map, h0]
  · intro vs hvs hn
    cases hp : s.pairsE with
    | error e => simp [Series.toArray, hp, Except.map] at hvs
    | ok ps =>
      simp [Series.toArray, hp, Except.map] at hvs
      have hlen : ps.length ≤ n.toNat := by
        have : ps.length = vs.length := by rw [← hvs, List.length_map]
        omega
      simp [Series.skip, Series.toArray, hp, Except.map, List.drop_eq_nil_of_le hlen]

/-- Claim C2 instantiated: skipping a negative count leaves the array
unchanged, and skipping past the end yields the empty array. -/
theorem skip_suffix_spec_witness :
    (exampleSeries.skip (-1)).toArray = exampleSeries.toArray ∧
    (exampleSeries.skip 5).toArray = .ok [] := by
  constructor
  · exact (skip_suffix_spec exampleSeries (-1)).2.2.1 (by decide)
  · exact (skip_suffix_spec exampleSeries 5).2.2.2 [10, 20, 30] rfl (by decide)

/-- Claim C5: round-trip through pairs. For every Series `s` whose traversal
yields the pairs `ps`, constructing a new Series from the configuration that
supplies exactly those pairs succeeds, and the new Series has the same value
array and the same index key sequence as `s`. -/
theorem pairs_roundtrip (natKey : Nat → K) (s : Series K V) (ps : List (K × V))
    (h : s.toPairs = .ok ps) :
    (Series.initFromConfig natKey ⟨none, none, some (Source.arr ps), false⟩).map
        Series.toArray = .ok s.toArray ∧
    (Series.initFromConfig natKey ⟨none, none, some (Source.arr ps), false⟩).map
        Series.getIndex = .ok s.getIndex := by
  have hp : s.pairsE = .ok ps := h
  constructor
  · simp [Series.initFromConfig, Series.finishConfig, Source.toList, Except.map,
      Series.toArray, hp]
  · simp [Series.initFromConfig, Series.finishConfig, Source.toList, Except.map,
      Series.getIndex, hp]

/-- Claim C5 instantiated at a concrete three-element Series. -/
theorem pairs_roundtrip_witness :
    (Series.initFromConfig id ⟨none, none, some (Source.arr [(0, 10), (1, 20), (2, 30)]), false⟩).map
        Series.toArray = .ok exampleSeries.toArray ∧
    (Series.initFromConfig id ⟨none, none, some (Source.arr [(0, 10), (1, 20), (2, 30)]), false⟩).map
        Series.getIndex = .ok exampleSeries.getIndex :=
  pairs_roundtrip id exampleSeries [(0, 10), (1, 20), (2, 30)] rfl

/-- Claim C6: when explicit index and values differ in eventual count, a
Length-Mismatch error is raised: at construction when both were supplied as
plain arrays, whose differing lengths are statically known (first conjunct);
otherwise construction succeeds unbaked and the error surfaces lazily at the
first full traversal, here an iterable value source (second and third
conjuncts: the outer `.ok` is the successful construction, the inner
`.error` the failing traversal). The failure leaves the Series itself
untouched: both terminal operations report the same error and the model
mutates nothing. -/
theorem length_mismatch_static_and_lazy (natKey : Nat → K) (ia : List K)
    (va : List V) (b : Bool) (h : ia.length ≠ va.length) :
    Series.initFromConfig natKey ⟨some (Source.arr va), some (Source.arr ia), none, b⟩ =
      .error .lengthMismatch ∧
    (Series.initFromConfig natKey
        ⟨some (Source.iterable va), some (Source.arr ia), none, false⟩).map
      Series.toArray = .ok (.error .lengthMismatch) ∧
    (Series.initFromConfig natKey
        ⟨some (Source.iterable va), some (Source.arr ia), none, false⟩).map
      Series.toPairs = .ok (.error .lengthMismatch) := by
  refine ⟨?_, ?_, ?_⟩
  · simp [Series.initFromConfig, h]
  · simp [Series.initFromConfig, Series.finishConfig, Source.toList, Except.map,
      Series.toArray, h]
  · simp [Series.initFromConfig, Series.finishConfig, Source.toList, Except.map,
      Series.toPairs, h]

/-- Claim C6 instantiated: values `[1, 2]` against index `[1]`, as plain
arrays and with an iterable value source. -/
theorem length_mismatch_witness :
    Series.initFromConfig id
        ⟨some (Source.arr [1, 2]), some (Source.arr [1]), none, false⟩ =
      (.error .lengthMismatch : Except DFError (Series Nat Nat)) ∧
    (Series.initFromConfig id
        ⟨some (Source.iterable [1, 2]), some (Source.arr [1]), none, false⟩).map
      Series.toArray = .ok (.error .lengthMismatch) := by
  have h := length_mismatch_static_and_lazy (K := Nat) (V := Nat) id [1] [1, 2]
    false (by decide)
  exact ⟨h.1, h.2.1⟩

/-- Claim C4: `bake` is idempotent. Whenever `s.bake` succeeds with result
`b`, baking `b` again returns `b` itself unchanged, the second bake performs
zero selector invocations, and the baked Series holds exactly the pairs of
the original traversal. -/
theorem bake_idempotent (s b : Series K V) (h : s.bake = .ok b) :
    b.bake = .ok b ∧ b.bakeInvocations = 0 ∧ b.toPairs = s.toPairs := by
  unfold Series.bake at h
  by_cases hb : s.isBaked
  · simp [hb] at h
    subst h
    simp [Series.bake, Series.bakeInvocations, hb]
  · simp [hb] at h
    cases hp : s.pairsE with
    | error e => rw [hp] at h; simp [Except.map] at h
    | ok ps =>
      rw [hp] at h
      simp [Except.map] at h
      subst h
      simp [Series.bake, Series.bakeInvocations, Series.toPairs, hp]

/-- Claim C4 instantiated: baking a concrete unbaked select chain and then
baking the result again returns it unchanged with no selector invocation. -/
theorem bake_idempotent_witness :
    (⟨Except.ok [(0, 1), (1, 3)], 0, true⟩ : Series Nat Nat).bake =
      Except.ok (⟨Except.ok [(0, 1), (1, 3)], 0, true⟩ : Series Nat Nat) ∧
    (⟨Except.ok [(0, 1), (1, 3)], 0, true⟩ : Series Nat Nat).bakeInvocations = 0 ∧
    (⟨Except.ok [(0, 1), (1, 3)], 0, true⟩ : Series Nat Nat).toPairs =
      exampleSelected.toPairs :=
  bake_idempotent exampleSelected ⟨Except.ok [(0, 1), (1, 3)], 0, true⟩ rfl

/-- Advancing the select iterator accounts one selector invocation and one
upstream pull per pair actually produced, and never produces more pairs than
were requested. -/
theorem selectAdvance_counts (f : V → Nat → W) (k : Nat) (st : SelectIterState K V) :
    (selectAdvance f k st).2.selectorCalls =
      st.selectorCalls + (selectAdvance f k st).1.length ∧
    (selectAdvance f k st).2.upstreamPulled =
      st.upstreamPulled + (selectAdvance f k st).1.length ∧
    (selectAdvance f k st).1.length ≤ k := by
  induction k generalizing st with
  | zero => simp [selectAdvance]
  | succ k ih =>
    cases hup : st.upstream with
    | nil => simp [selectAdvance, selectNext, hup]
    | cons p rest =>
      have h := ih
        { upstream := rest, pos := st.pos + 1
        , selectorCalls := st.selectorCalls + 1
        , upstreamPulled := st.upstreamPulled + 1 }
      dsimp only at h
      simp only [selectAdvance, selectNext, hup, List.length_cons]
      exact ⟨by omega, by omega, by omega⟩

/-- Claim C9: pure laziness of `select`. Before any pair is requested no
selector invocation has happened; after a consumer requests `k` pairs, the
number of selector invocations equals the number of pairs actually produced
and is at most `k`, and the number of upstream pairs consumed equals that
same number, hence also at most `k` — evaluation advances exactly as far as
requested, with no read-ahead of the upstream source. -/
theorem select_lazy_pull_counts (f : V → Nat → W) (src : List (K × V)) (k : Nat) :
    (selectIterStart src).selectorCalls = 0 ∧
    (selectAdvance f k (selectIterStart src)).2.selectorCalls =
      (selectAdvance f k (selectIterStart src)).1.length ∧
    (selectAdvance f k (selectIterStart src)).2.upstreamPulled =
      (selectAdvance f k (selectIterStart src)).2.selectorCalls ∧
    (selectAdvance f k (selectIterStart src)).2.selectorCalls ≤ k ∧
    (selectAdvance f k (selectIterStart src)).2.upstreamPulled ≤ k := by
  have h := selectAdvance_counts f k (selectIterStart src)
  have h0 : (selectIterStart (K := K) (V := V) src).selectorCalls = 0 := rfl
  have h1 : (selectIterStart (K := K) (V := V) src).upstreamPulled = 0 := rfl
  refine ⟨h0, ?_, ?_, ?_, ?_⟩ <;> omega

/-- Claim C10 counterexample: the declared contracts of ISeries.withIndex
and Series.withIndex do not agree on every argument shape. A general
iterable of new keys (e.g. a bare generator) is admitted by the interface
contract, `NewIndexT[] | Iterable<NewIndexT>`, but not by the class
signature, `IIndex<NewIndexT> | ISeries<any, NewIndexT> | NewIndexT[]`. -/
theorem withIndex_shape_counterexample :
    iseriesWithIndexAccepts .generalIterable = true ∧
    seriesWithIndexAccepts .generalIterable = false := by decide

/-- Claim C10 amended: the interface contract and the class signature of
withIndex agree on every argument shape except the general iterable — plain
arrays, ISeries arguments (iterable by declaration) and IIndex arguments
(iterable per the spec's Index contract) are admitted by both; the general
iterable alone is admitted by the interface contract but missing from the
class's declared union. -/
theorem withIndex_shapes_agree_off_iterable (sh : WithIndexArgShape)
    (h : sh ≠ WithIndexArgShape.generalIterable) :
    iseriesWithIndexAccepts sh = seriesWithIndexAccepts sh := by
  cases sh <;> first | rfl | exact absurd rfl h

/-- Claim C10 amended, instantiated at the plain-array shape. -/
theorem withIndex_shapes_agree_witness :
    iseriesWithIndexAccepts .plainArray = seriesWithIndexAccepts .plainArray :=
  withIndex_shapes_agree_off_iterable .plainArray (by decide)

end DataForge
